import Mathlib

/-!
Shallow embedding of the `ccb` gym-booking repository (files
`ccb/activities.py` and `ccb/main.py`), together with theorems settling
the frozen claims about its specification.

Conventions of the embedding:
* Python `int` values become `Int` (Python integers are unbounded and may
  be negative, e.g. `int("-5")`).
* Python string `split` is modelled on character lists by `splitOnStr`,
  which reproduces CPython's left-to-right non-overlapping scan for a
  non-empty separator.
* Python `int(s)` parsing is modelled by `toIntPy` (optional sign followed
  by at least one decimal digit); surrounding whitespace never occurs in
  the tokens this program parses.
* A Python function that can fall off the end without a `return`
  statement returns `None`; such comparison methods are modelled as
  `Option Bool`, and the truthiness coercion Python applies to the result
  (`bool(None) = False`) is `truthy`.
* Raised exceptions are modelled with `Except String` (the exact message
  text is irrelevant to every claim, except for `ClassError`, whose list
  of valid names is modelled structurally by `ConfigError.classError`).
* Side effects of a booking attempt (clicks forwarded to the selenium
  element, fallback `execute_script` clicks, and `warnings.warn` calls)
  are counted in an `Effects` record.  The external outcome of a direct
  element click (success, or an exception forcing the fallback) is an
  oracle parameter `primaryFails`; the fallback itself is assumed to
  return (its failure would abort the run, which no claim exercises).
-/

instance {ε α : Type _} [DecidableEq ε] [DecidableEq α] : DecidableEq (Except ε α) := fun x y =>
  match x, y with
  | .error a, .error b =>
    if h : a = b then isTrue (h ▸ rfl)
    else isFalse fun hh => h (by injection hh)
  | .error _, .ok _ => isFalse fun hh => by injection hh
  | .ok _, .error _ => isFalse fun hh => by injection hh
  | .ok a, .ok b =>
    if h : a = b then isTrue (h ▸ rfl)
    else isFalse fun hh => h (by injection hh)

/-- Left-to-right split of a character list on a non-empty separator,
as CPython's `str.split(sep)`: `splitAux sep fuel acc l` with enough fuel
scans `l`, cutting at each occurrence of `sep`. -/
def splitAux (sep : List Char) : Nat → List Char → List Char → List (List Char)
  | _, acc, [] => [acc.reverse]
  | 0, acc, rest => [acc.reverse ++ rest]
  | fuel + 1, acc, c :: cs =>
    if sep.isPrefixOf (c :: cs) then
      acc.reverse :: splitAux sep fuel [] ((c :: cs).drop sep.length)
    else
      splitAux sep fuel (c :: acc) cs

/-- Python `s.split(sep)` for a non-empty `sep`, on character lists. -/
def splitOnStr (sep l : List Char) : List (List Char) :=
  splitAux sep l.length [] l

/-- Value of a non-empty all-digit character list, `none` otherwise. -/
def digitsVal (l : List Char) : Option Nat :=
  l.foldl
    (fun acc c =>
      match acc with
      | none => none
      | some n => if c.isDigit then some (n * 10 + (c.toNat - 48)) else none)
    (some 0)

/-- Digits of a decimal numeral (at least one digit required). -/
def digitsToNat (l : List Char) : Option Nat :=
  match l with
  | [] => none
  | _ => digitsVal l

/-- Python `int(s)`: optional sign, then at least one decimal digit. -/
def toIntPy (l : List Char) : Option Int :=
  match l with
  | '-' :: rest => (digitsToNat rest).map (fun n => -(n : Int))
  | '+' :: rest => (digitsToNat rest).map (fun n => (n : Int))
  | _ => (digitsToNat l).map (fun n => (n : Int))

/-- Truthiness Python applies to the value returned by a comparison
method: `None` is falsy, a `bool` is itself. -/
def truthy : Option Bool → Bool
  | none => false
  | some b => b

/-- `ccb.activities.Hour`: the `hh:mm` wall-clock value.  The setters
store `int(hr)` and `int(mins)` with no range validation. -/
structure Hour where
  hour : Int
  minutes : Int
  deriving DecidableEq, Repr

/-- `Hour.__init__` body after `h.split(':')`: exactly two components,
each passed to `int`; any other shape raises `ValueError`. -/
def parseHourL (l : List Char) : Option Hour :=
  match splitOnStr [':'] l with
  | [h, m] =>
    match toIntPy h, toIntPy m with
    | some hh, some mm => some ⟨hh, mm⟩
    | _, _ => none
  | _ => none

/-- `Hour(h)` from a Python string. -/
def parseHour (s : String) : Option Hour :=
  parseHourL s.toList

/-- `Hour.__eq__`: equal hour component, then equal minutes. -/
def hour_eqb (a b : Hour) : Bool :=
  if a.hour = b.hour then a.minutes = b.minutes else false

/-- `Hour.__le__`, verbatim: if `self.hour <= other.hour` it returns
`True` at once; otherwise the nested `self.hour == other.hour` test is
unreachable and the method falls through, returning `None`. -/
def hour_le (a b : Hour) : Option Bool :=
  if a.hour ≤ b.hour then some true
  else if a.hour = b.hour then some (a.minutes ≤ b.minutes)
  else none

/-- `Hour.__lt__`, verbatim: `True` on a smaller hour component, the
minute comparison on an equal one, and a fall-through `None` otherwise. -/
def hour_lt (a b : Hour) : Option Bool :=
  if a.hour < b.hour then some true
  else if a.hour = b.hour then some (a.minutes < b.minutes)
  else none

/-- `Hour.__ge__`: `not self <= other`. -/
def hour_ge (a b : Hour) : Bool :=
  !(truthy (hour_le a b))

/-- `Hour.__gt__`: `not self < other`. -/
def hour_gt (a b : Hour) : Bool :=
  !(truthy (hour_lt a b))

/-- The genuine lexicographic strict order on `Hour` values (hour first,
then minutes); the order the specification describes. -/
def LtLex (a b : Hour) : Prop :=
  a.hour < b.hour ∨ (a.hour = b.hour ∧ a.minutes < b.minutes)

instance (a b : Hour) : Decidable (LtLex a b) := by
  unfold LtLex; infer_instance

/-- `ccb.activities.Schedule`: the start and end `Hour` of a class. -/
structure Schedule where
  start : Hour
  end_ : Hour
  deriving DecidableEq, Repr

/-- `Schedule(sch)`: `sch.split(' - ')` must give exactly two parts, each
parsed by the `Hour` constructor. -/
def parseSchedule (s : String) : Option Schedule :=
  match splitOnStr (String.toList " - ") s.toList with
  | [a, b] =>
    match parseHourL a, parseHourL b with
    | some h1, some h2 => some ⟨h1, h2⟩
    | _, _ => none
  | _ => none

/-- `Schedule.__contains__`: the chained Python comparison
`self.start < item < self.end`, each link coerced by truthiness. -/
def scheduleContains (s : Schedule) (item : Hour) : Bool :=
  truthy (hour_lt s.start item) && truthy (hour_lt item s.end_)

/-- `ccb.activities.Reservation`: the `(places/total)` capacity counter. -/
structure Reservation where
  places : Int
  total : Int
  deriving DecidableEq, Repr

/-- `Reservation(reserva)`: `reserva[1:-1].split('/')` into exactly two
parts, each passed to `int`.  The slice `[1:-1]` drops the first and last
character whatever they are. -/
def parseReservation (s : String) : Option Reservation :=
  match splitOnStr ['/'] ((s.toList.drop 1).dropLast) with
  | [p, t] =>
    match toIntPy p, toIntPy t with
    | some pp, some tt => some ⟨pp, tt⟩
    | _, _ => none
  | _ => none

/-- `Reservation.is_free`: `places < total`. -/
def Reservation.is_free (r : Reservation) : Bool :=
  r.places < r.total

/-- `ccb.activities.ButtonIcon.PLUS`. -/
def ButtonIcon.PLUS : String := "PLUS"

/-- `ccb.activities.ButtonIcon.MINUS`. -/
def ButtonIcon.MINUS : String := "MINUS"

/-- `ccb.activities.Button`: either a properly defined button wrapping a
clickable element (`enabled = true`) or the textual cell fallback
(`enabled = false`). -/
structure Button where
  enabled : Bool
  icon : Option String
  deriving DecidableEq, Repr

/-- Side effects observable from one booking attempt: direct clicks
forwarded to the selenium element, fallback `execute_script` clicks, and
`warnings.warn` calls. -/
structure Effects where
  elementClicks : Nat
  scriptClicks : Nat
  warns : Nat
  deriving DecidableEq, Repr

/-- `Button.click`: an enabled button forwards one click to the element
(plus one `execute_script` fallback when the direct click raises, per the
`primaryFails` oracle); a disabled button only emits `warnings.warn`. -/
def Button.click (b : Button) (primaryFails : Bool) : Effects :=
  if b.enabled then
    if primaryFails then ⟨1, 1, 0⟩ else ⟨1, 0, 0⟩
  else ⟨0, 0, 1⟩

/-- The four class-name constants of `ccb.activities.Activities`. -/
def Activities.CROSSFIT : String := "Crossfit"

/-- `Activities.OPEN_BOX`. -/
def Activities.OPEN_BOX : String := "Open Box"

/-- `Activities.WEIGHTLIFTING`. -/
def Activities.WEIGHTLIFTING : String := "Halterofília"

/-- `Activities.CALISTHENICS`. -/
def Activities.CALISTHENICS : String := "Calisteni"

/-- `ccb.activities.Activity` as built by `CCB._get_activity`: the four
subclasses differ only in the constant returned by their `name` property,
carried here in the `name` field.  `_get_activity` always supplies all
three keyword arguments. -/
structure Activity where
  name : String
  schedule : Schedule
  reservation : Reservation
  button : Button
  deriving DecidableEq, Repr

/-- `Activity.book`: when `reservation.is_free()` it calls
`self.button.click()` and returns `True`; otherwise it logs and returns
`False` with no side effect. -/
def Activity.book (a : Activity) (primaryFails : Bool) : Bool × Effects :=
  if a.reservation.is_free then (true, a.button.click primaryFails)
  else (false, ⟨0, 0, 0⟩)

/-- `ccb.main.CLASS_MAP`: configuration tokens (the dict keys) to the
`Activities` constants used on the page. -/
def CLASS_MAP : List (String × String) :=
  [("Open Box", Activities.OPEN_BOX),
   ("Crossfit", Activities.CROSSFIT),
   ("Calisthenics", Activities.CALISTHENICS),
   ("Weightlifting", Activities.WEIGHTLIFTING)]

/-- Exceptions raised while reading the configuration: `ClassError`
(carrying the offending token and the list of valid names computed from
`CLASS_MAP.keys()`) and the `ValueError`-family failures. -/
inductive ConfigError where
  | classError (class_ : String) (validNames : List String)
  | valueError (msg : String)
  deriving DecidableEq, Repr

/-- `raise ClassError(wanted_class)`: the constructor formats the message
with `list(CLASS_MAP.keys())`. -/
def mkClassError (c : String) : ConfigError :=
  .classError c (CLASS_MAP.map Prod.fst)

/-- Gregorian leap-year rule, as `datetime.date` applies it. -/
def isLeapYear (y : Int) : Bool :=
  (y % 4 == 0 && y % 100 != 0) || y % 400 == 0

/-- Length of a month, as validated by `datetime.date`. -/
def daysInMonth (y m : Int) : Int :=
  if m = 2 then (if isLeapYear y then 29 else 28)
  else if m = 4 ∨ m = 6 ∨ m = 9 ∨ m = 11 then 30
  else 31

/-- The argument ranges `datetime.date(y, m, d)` accepts. -/
def dateValid (y m d : Int) : Bool :=
  1 ≤ y && y ≤ 9999 && 1 ≤ m && m ≤ 12 && 1 ≤ d && d ≤ daysInMonth y m

/-- A `datetime.date` value. -/
structure Date where
  year : Int
  month : Int
  day : Int
  deriving DecidableEq, Repr

/-- `JsonConfig._parse_day`: `day.split('/')` unpacked as `d, m, y`, each
through `int`, then `dt.date(int(y), int(m), int(d))`; every `ValueError`
on the way is re-raised with the bad-day-format message. -/
def parse_day (s : String) : Except ConfigError Date :=
  match splitOnStr ['/'] s.toList with
  | [d, m, y] =>
    match toIntPy d, toIntPy m, toIntPy y with
    | some di, some mi, some yi =>
      if dateValid yi mi di then .ok ⟨yi, mi, di⟩
      else .error (.valueError "Bad day format in wanted_days.")
    | _, _, _ => .error (.valueError "Bad day format in wanted_days.")
  | _ => .error (.valueError "Bad day format in wanted_days.")

/-- `act.Hour(hour)` inside `_get_classes`: a malformed token raises
`ValueError`. -/
def hourE (s : String) : Except ConfigError Hour :=
  match parseHour s with
  | some h => .ok h
  | none => .error (.valueError "invalid hour token")

/-- The `days` object of the configuration document:
day token ↦ (hour token ↦ list of wanted class tokens), in insertion
order as Python dicts iterate. -/
def ConfigDoc : Type :=
  List (String × List (String × List String))

/-- The inner loop of `JsonConfig._get_classes` over one hour entry:
each wanted class token must be a key of `CLASS_MAP`, else
`ClassError(wanted_class)` is raised; otherwise `CLASS_MAP[wanted_class]`
is appended. -/
def mapClasses : List String → Except ConfigError (List String)
  | [] => .ok []
  | c :: cs =>
    match CLASS_MAP.lookup c with
    | none => .error (mkClassError c)
    | some a =>
      match mapClasses cs with
      | .error e => .error e
      | .ok rest => .ok (a :: rest)

/-- The middle loop of `_get_classes` over the hour entries of one day:
parse the hour token, then resolve that hour's class tokens. -/
def getClassesDay : List (String × List String) → Except ConfigError (List Hour × List String)
  | [] => .ok ([], [])
  | (ht, cs) :: rest =>
    match hourE ht with
    | .error e => .error e
    | .ok h =>
      match mapClasses cs with
      | .error e => .error e
      | .ok mapped =>
        match getClassesDay rest with
        | .error e => .error e
        | .ok (hs, cls) => .ok (h :: hs, mapped ++ cls)

/-- `JsonConfig._get_classes`: iterate the day entries in order,
accumulating `_days`, `_hours` and `_classes`; the first exception
raised aborts the whole call. -/
def getClasses : ConfigDoc → Except ConfigError (List Date × List Hour × List String)
  | [] => .ok ([], [], [])
  | (dt, hours) :: rest =>
    match parse_day dt with
    | .error e => .error e
    | .ok d =>
      match getClassesDay hours with
      | .error e => .error e
      | .ok (hs, cls) =>
        match getClasses rest with
        | .error e => .error e
        | .ok (ds, hs2, cls2) => .ok (d :: ds, hs ++ hs2, cls ++ cls2)

/-- All wanted class tokens of a configuration document, in the order
`_get_classes` visits them. -/
def classTokens (doc : ConfigDoc) : List String :=
  doc.flatMap fun p => p.2.flatMap fun q => q.2

/-- Did a call return normally rather than raise? -/
def isOkE {ε α : Type _} (x : Except ε α) : Bool :=
  match x with
  | .ok _ => true
  | .error _ => false

/-- Day and hour tokens of a configuration document all parse; under this
condition the only exception `_get_classes` can raise is a `ClassError`. -/
def cfgTokensParse (doc : ConfigDoc) : Bool :=
  doc.all fun p =>
    isOkE (parse_day p.1) && p.2.all fun q => (parseHour q.1).isSome

/-- The four-entry class vocabulary as the specification words it
(taken from the spec, for comparison with `CLASS_MAP`). -/
def specClassVocabulary : List String :=
  ["Open Box", "Crossfit", "Halterofília", "Calisteni"]

/-- One `td` cell of a scraped table row: its `text`, and for the
`Reservar` column the `class` attribute of the icon `span` when the cell
holds a clickable anchor instead of text. -/
structure Cell where
  text : String
  icon : Option String
  deriving DecidableEq, Repr

/-- Is `needle` a contiguous substring, as Python `needle in hay`. -/
def isSubStr (needle : List Char) : List Char → Bool
  | [] => needle.isEmpty
  | c :: cs => needle.isPrefixOf (c :: cs) || isSubStr needle cs

/-- `CCB._parse_table_elem` at position 3: a non-empty cell text gives a
disabled `Button(str)`; otherwise the anchor element and the icon class
are looked up (a missing anchor would raise) and the icon setter maps any
class containing `plus` to `PLUS`, everything else to `MINUS`. -/
def parseButtonE (c : Cell) : Except String Button :=
  if c.text ≠ "" then .ok ⟨false, none⟩
  else
    match c.icon with
    | some ico =>
      .ok ⟨true, some (if isSubStr (String.toList "plus") ico.toList
                        then ButtonIcon.PLUS else ButtonIcon.MINUS)⟩
    | none => .error "NoSuchElementException"

/-- `CCB._get_activity`: dispatch the parsed name against the four
`Activities` constants; an unknown name leaves `activity = None` and
emits one `warnings.warn` (the returned `Nat` counts warnings). -/
def CCB_getActivity (sch : Schedule) (res : Reservation) (btn : Button)
    (name : String) : Option Activity × Nat :=
  if name = Activities.OPEN_BOX then (some ⟨Activities.OPEN_BOX, sch, res, btn⟩, 0)
  else if name = Activities.CROSSFIT then (some ⟨Activities.CROSSFIT, sch, res, btn⟩, 0)
  else if name = Activities.CALISTHENICS then (some ⟨Activities.CALISTHENICS, sch, res, btn⟩, 0)
  else if name = Activities.WEIGHTLIFTING then (some ⟨Activities.WEIGHTLIFTING, sch, res, btn⟩, 0)
  else (none, 1)

/-- One row of the loop body of `CCB.get_activities`: a row with more
than four cells is passed over silently (`.ok none`); otherwise each cell
is parsed in position order (propagating any exception), then the row is
handed to `_get_activity` and the result — possibly `None` — is appended.
A row with fewer than four cells raises `IndexError` when the keyword
arguments are assembled, after the cells it does have were parsed. -/
def processRow (cells : List Cell) : Except String (Option (Option Activity × Nat)) :=
  if cells.length > 4 then .ok none
  else
    match cells with
    | [c0, c1, c2, c3] =>
      match parseSchedule c0.text with
      | none => .error "ValueError: bad schedule"
      | some sch =>
        match parseReservation c2.text with
        | none => .error "ValueError: bad reservation"
        | some res =>
          match parseButtonE c3 with
          | .error e => .error e
          | .ok btn => .ok (some (CCB_getActivity sch res btn c1.text))
    | [c0, _c1, c2] =>
      match parseSchedule c0.text with
      | none => .error "ValueError: bad schedule"
      | some _ =>
        match parseReservation c2.text with
        | none => .error "ValueError: bad reservation"
        | some _ => .error "IndexError"
    | [c0, _c1] =>
      match parseSchedule c0.text with
      | none => .error "ValueError: bad schedule"
      | some _ => .error "IndexError"
    | [c0] =>
      match parseSchedule c0.text with
      | none => .error "ValueError: bad schedule"
      | some _ => .error "IndexError"
    | _ => .error "IndexError"

/-- Fold of `processRow` over the activity rows, accumulating the list of
appended `Option Activity` values and the warning count; the first
exception aborts the whole call. -/
def processRows : List (List Cell) → Except String (List (Option Activity) × Nat)
  | [] => .ok ([], 0)
  | row :: rest =>
    match processRow row with
    | .error e => .error e
    | .ok none => processRows rest
    | .ok (some (a?, w)) =>
      match processRows rest with
      | .error e => .error e
      | .ok (l, ws) => .ok (a? :: l, w + ws)

/-- `CCB.get_activities`: enumerate the table rows, skipping the first
two (the `i > 1` guard — they are structural headers), and process the
rest in order. -/
def getActivities (rows : List (List Cell)) : Except String (List (Option Activity) × Nat) :=
  processRows (rows.drop 2)

/-- The per-record test of the `__main__` booking loop:
`activity.name in wanted_activities` and
`wanted_hour in activity.schedule`. -/
def loopMatches (a : Activity) (wantedActivities : List String) (wantedHour : Hour) : Bool :=
  wantedActivities.contains a.name && scheduleContains a.schedule wantedHour

/-- Modelled from the spec: the `BookingFilter.match` contract of §4.5 —
the conjunction of exactly three conditions, class tag wanted, target
hour contained in the record's window under the strict rule, and the
calendar day wanted.  Stated for comparison with the per-record decision
`loopMatches` the booking loop actually evaluates. -/
def specBookingFilterMatch (a : Activity) (day : Date) (wantedDays : List Date)
    (wantedActivities : List String) (targetHour : Hour) : Bool :=
  wantedActivities.contains a.name && scheduleContains a.schedule targetHour
    && wantedDays.contains day

/-- The `__main__` booking loop over `get_activities()` output: each
element is first dereferenced as `activity.name` — an unregistered row
left a `None` in the list, and `None.name` raises `AttributeError`,
aborting the run (second component).  A matching activity is booked and
the pair (activity, result of `book`) recorded, in table order; a
non-matching one is passed over.  `primaryFails` is the per-activity
click oracle. -/
def bookingLoop (xs : List (Option Activity)) (wantedActivities : List String)
    (wantedHour : Hour) (primaryFails : Activity → Bool) :
    List (Activity × Bool × Effects) × Option String :=
  match xs with
  | [] => ([], none)
  | none :: _ => ([], some "AttributeError: NoneType object has no attribute name")
  | some a :: rest =>
    let (tail, err) := bookingLoop rest wantedActivities wantedHour primaryFails
    if loopMatches a wantedActivities wantedHour then
      ((a, Activity.book a (primaryFails a)) :: tail, err)
    else (tail, err)

/-! Helper lemmas about the `Hour` comparison methods. -/

/-- The truthiness of `Hour.__lt__` coincides with the genuine
lexicographic strict order: the fall-through `None` of the method is
falsy exactly on the pairs where the hour component is larger. -/
theorem truthy_hour_lt_iff (a b : Hour) : truthy (hour_lt a b) = true ↔ LtLex a b := by
  unfold hour_lt LtLex
  rcases lt_trichotomy a.hour b.hour with h | h | h
  · simp [h, truthy]
  · simp [h, truthy]
  · have h1 : ¬a.hour < b.hour := by omega
    have h2 : ¬a.hour = b.hour := by omega
    simp [h1, h2, truthy]

/-- `a < a` evaluates to `False` (hours equal, minutes not smaller). -/
theorem truthy_hour_lt_self (a : Hour) : truthy (hour_lt a a) = false := by
  simp [hour_lt, truthy]

/-- C1: claimed — `Hour` comparison is a strict lexicographic total
order, with trichotomy among `<`, `=`, `>` and with `a <= b` iff
`a < b ∨ a = b`.  The code violates this: `__gt__` is `not self < other`
(so `11:30 > 11:30` is `True` while `11:30 == 11:30` also holds, breaking
trichotomy), and `__le__` returns `True` as soon as `self.hour <=
other.hour` (so `11:30 <= 11:00` is truthy although `11:30 < 11:00` and
`11:30 == 11:00` are both falsy).  This theorem evaluates the comparison
methods at those failing inputs. -/
theorem hour_order_eval :
    hour_eqb ⟨11, 30⟩ ⟨11, 30⟩ = true ∧ hour_gt ⟨11, 30⟩ ⟨11, 30⟩ = true ∧
    truthy (hour_le ⟨11, 30⟩ ⟨11, 0⟩) = true ∧
    truthy (hour_lt ⟨11, 30⟩ ⟨11, 0⟩) = false ∧
    hour_eqb ⟨11, 30⟩ ⟨11, 0⟩ = false := by decide

/-- C2: claimed — on a record with space but with the bookable control
absent, `Activity.book` returns the `NoControl` outcome without invoking
the click collaborator and without raising.  The code indeed forwards no
click to the element (zero element and script clicks, one
`warnings.warn`) and raises nothing, but it returns `True` — the very
value it returns for a successful booking (second conjunct: the same
call with an enabled button also returns `true`), and it logs the class
as registered; there is no distinct `NoControl` outcome. -/
theorem book_control_absent_eval :
    Activity.book ⟨Activities.CROSSFIT, ⟨⟨11, 0⟩, ⟨13, 0⟩⟩, ⟨13, 15⟩, ⟨false, none⟩⟩ false
      = (true, ⟨0, 0, 1⟩) ∧
    Activity.book ⟨Activities.CROSSFIT, ⟨⟨11, 0⟩, ⟨13, 0⟩⟩, ⟨13, 15⟩, ⟨true, some ButtonIcon.PLUS⟩⟩ false
      = (true, ⟨1, 0, 0⟩) := by decide

/-- C5: `Schedule.__contains__` is strict containment on both bounds —
`t ∈ s` is true exactly when `start < t` and `t < end` in the
lexicographic order, and neither endpoint is contained. -/
theorem schedule_contains_strict (s : Schedule) (t : Hour) :
    (scheduleContains s t = true ↔ (LtLex s.start t ∧ LtLex t s.end_)) ∧
    scheduleContains s s.start = false ∧ scheduleContains s s.end_ = false := by
  refine ⟨?_, ?_, ?_⟩
  · unfold scheduleContains
    rw [Bool.and_eq_true, truthy_hour_lt_iff, truthy_hour_lt_iff]
  · simp [scheduleContains, truthy_hour_lt_self]
  · simp [scheduleContains, truthy_hour_lt_self]

/-- C7: on a record without space (`is_free()` false) `Activity.book`
returns `False` and produces no side effect at all — in particular the
click collaborator is never invoked. -/
theorem book_no_space (a : Activity) (primaryFails : Bool)
    (h : a.reservation.is_free = false) :
    Activity.book a primaryFails = (false, ⟨0, 0, 0⟩) := by
  unfold Activity.book
  rw [h]
  simp

/-- Witness for `book_no_space` at a full `(15/15)` crossfit record. -/
theorem book_no_space_witness :
    (Reservation.is_free ⟨15, 15⟩ = false) ∧
    Activity.book ⟨Activities.CROSSFIT, ⟨⟨11, 0⟩, ⟨13, 0⟩⟩, ⟨15, 15⟩, ⟨true, none⟩⟩ false
      = (false, ⟨0, 0, 0⟩) :=
  ⟨by decide,
   book_no_space ⟨Activities.CROSSFIT, ⟨⟨11, 0⟩, ⟨13, 0⟩⟩, ⟨15, 15⟩, ⟨true, none⟩⟩ false (by decide)⟩

/-- C9 counterexample: the `Hour` constructor performs no range
validation — the token `25:99`, whose components are outside 0–23 and
0–59, still constructs the value `⟨25, 99⟩`. -/
theorem hour_parse_no_validation_cex :
    parseHour "25:99" = some ⟨25, 99⟩ ∧ (23 : Int) < 25 ∧ (59 : Int) < 99 := by decide

/-- C9 (amended): an `Hour` parses from a token exactly when the token
splits on `:` into two `int`-parsable components, and it then stores
those integers verbatim — no range restriction appears, so out-of-range
and even negative components are accepted (`25:99`, `-5:70`). -/
theorem hour_parse_components :
    (∀ (s : String) (h : Hour),
      parseHour s = some h →
        ∃ a b : List Char, splitOnStr [':'] s.toList = [a, b] ∧
          toIntPy a = some h.hour ∧ toIntPy b = some h.minutes) ∧
    parseHour "25:99" = some ⟨25, 99⟩ ∧ parseHour "-5:70" = some ⟨-5, 70⟩ := by
  refine ⟨?_, by decide, by decide⟩
  intro s h hp
  unfold parseHour parseHourL at hp
  rcases hs : splitOnStr [':'] s.toList with _ | ⟨a, _ | ⟨b, _ | _⟩⟩ <;> rw [hs] at hp
  · exact absurd hp (by simp)
  · exact absurd hp (by simp)
  · have hp' : (match toIntPy a, toIntPy b with
        | some hh, some mm => some (⟨hh, mm⟩ : Hour)
        | _, _ => none) = some h := hp
    rcases ha : toIntPy a with _ | x
    · rw [ha] at hp'
      exact absurd hp' (by simp)
    rcases hb : toIntPy b with _ | y
    · rw [ha, hb] at hp'
      exact absurd hp' (by simp)
    rw [ha, hb] at hp'
    injection hp' with he
    subst he
    exact ⟨a, b, rfl, ha, hb⟩
  · exact absurd hp (by simp)

/-- Witness for `hour_parse_components` at the token `11:30`. -/
theorem hour_parse_components_witness :
    parseHour "11:30" = some ⟨11, 30⟩ ∧
    ∃ a b : List Char, splitOnStr [':'] (String.toList "11:30") = [a, b] ∧
      toIntPy a = some (11 : Int) ∧ toIntPy b = some (30 : Int) :=
  ⟨by decide, hour_parse_components.1 "11:30" ⟨11, 30⟩ (by decide)⟩

/-- C4: claimed — a scraped row naming a class outside the vocabulary is
excluded from booking with only a warning, never a fatal error.  The
code does warn (`_get_activity` returns `None` and emits one warning,
first two conjuncts), but `get_activities` appends that `None` to the
list, and the booking loop then evaluates `None.name`, raising an
unhandled `AttributeError` that aborts the run (last conjunct) — the
anomaly is fatal, not a recoverable skip. -/
theorem unregistered_row_fatal :
    CCB_getActivity ⟨⟨11, 0⟩, ⟨13, 0⟩⟩ ⟨13, 15⟩ ⟨true, some ButtonIcon.PLUS⟩ "Yoga"
      = (none, 1) ∧
    getActivities
      [[], [],
       [⟨"11:00 - 13:00", none⟩, ⟨"Yoga", none⟩, ⟨"(13/15)", none⟩,
        ⟨"", some "glyphicon glyphicon-plus"⟩]]
      = .ok ([none], 1) ∧
    bookingLoop [none] [Activities.CROSSFIT] ⟨15, 0⟩ (fun _ => false)
      = ([], some "AttributeError: NoneType object has no attribute name") := by decide

/-- C6 counterexample: the claimed three-way `BookingFilter.match` is
false for a crossfit record (window 14:00–16:00, target hour 15:00) on
day 2020-11-23 when only 2020-11-22 is wanted — the day conjunct fails —
yet the per-record decision the booking loop evaluates is true: the loop
(`main.py` booking loop) tests only class and hour and consults no
calendar day, so a failing day check does not make the decision false. -/
theorem booking_filter_day_cex :
    specBookingFilterMatch ⟨"Crossfit", ⟨⟨14, 0⟩, ⟨16, 0⟩⟩, ⟨13, 15⟩, ⟨true, none⟩⟩
      ⟨2020, 11, 23⟩ [⟨2020, 11, 22⟩] ["Crossfit"] ⟨15, 0⟩ = false ∧
    loopMatches ⟨"Crossfit", ⟨⟨14, 0⟩, ⟨16, 0⟩⟩, ⟨13, 15⟩, ⟨true, none⟩⟩
      ["Crossfit"] ⟨15, 0⟩ = true := by decide

/-- C6 (amended): the per-record booking decision is the conjunction of
exactly two conditions — the record's class tag is wanted and the target
hour lies strictly inside the record's window — true when both hold and
false when either fails; no per-record day test exists (the decision
takes no day input).  The day condition of the spec's contract is
established outside the filter, by the run navigating to
`wanted_days()[0]` before scraping. -/
theorem booking_filter_two_conditions (a : Activity) (wantedActivities : List String)
    (targetHour : Hour) :
    loopMatches a wantedActivities targetHour = true ↔
      (a.name ∈ wantedActivities ∧
        (LtLex a.schedule.start targetHour ∧ LtLex targetHour a.schedule.end_)) := by
  unfold loopMatches scheduleContains
  rw [Bool.and_eq_true, Bool.and_eq_true, truthy_hour_lt_iff, truthy_hour_lt_iff]
  constructor
  · rintro ⟨h1, h2, h3⟩
    exact ⟨by simpa using h1, h2, h3⟩
  · rintro ⟨h1, h2, h3⟩
    exact ⟨by simpa using h1, h2, h3⟩

/-- C8: the booking pass visits the scraped records in table order and
attempts every record matching the filter, independently: the attempted
list is exactly the filtered list in order, each paired with its own
`book` outcome, whatever the click oracle reports for the others — there
is no stop-after-first-success short-circuit, and no booking outcome
prevents a later attempt. -/
theorem booking_attempts_every_match (l : List Activity) (wantedActivities : List String)
    (targetHour : Hour) (primaryFails : Activity → Bool) :
    bookingLoop (l.map some) wantedActivities targetHour primaryFails =
      ((l.filter (fun a => loopMatches a wantedActivities targetHour)).map
        (fun a => (a, Activity.book a (primaryFails a))), none) := by
  induction l with
  | nil => rfl
  | cons a rest ih =>
    simp only [List.map_cons, bookingLoop, ih, List.filter_cons]
    cases hc : loopMatches a wantedActivities targetHour <;> simp

/-- A row of more than four cells is passed over by `get_activities`
before any cell is parsed. -/
theorem processRow_oversized (cells : List Cell) (h : 4 < cells.length) :
    processRow cells = .ok none := by
  unfold processRow
  rw [if_pos h]

/-- Dropping an oversized row anywhere in the activity rows leaves the
fold of `processRow` unchanged. -/
theorem processRows_drop_oversized (l1 l2 : List (List Cell)) (big : List Cell)
    (h : 4 < big.length) :
    processRows (l1 ++ big :: l2) = processRows (l1 ++ l2) := by
  induction l1 with
  | nil => simp only [List.nil_append, processRows, processRow_oversized big h]
  | cons r l1 ih => simp only [List.cons_append, processRows, List.append_eq, ih]

/-- C10: a scraped table row with more than four cells (the
already-registered case) contributes nothing to `get_activities`: the
output — both the record list and the warning count — is the same as if
the row were not there, so no record of it can reach a booking attempt,
and no warning or error is produced for it. -/
theorem oversized_row_dropped (pre post : List (List Cell)) (big : List Cell)
    (hpre : 2 ≤ pre.length) (hbig : 4 < big.length) :
    getActivities (pre ++ big :: post) = getActivities (pre ++ post) := by
  unfold getActivities
  rw [List.drop_append_of_le_length hpre, List.drop_append_of_le_length hpre]
  exact processRows_drop_oversized _ _ _ hbig

/-! Characterization of `_get_classes`, towards claim C3. -/

/-- `act.Hour(hour)` returns normally exactly when the token parses. -/
theorem isOkE_hourE (s : String) : isOkE (hourE s) = (parseHour s).isSome := by
  unfold hourE
  cases h : parseHour s <;> simp [isOkE]

/-- If every wanted class token of one hour entry is a `CLASS_MAP` key,
the inner loop returns normally. -/
theorem mapClasses_ok (cs : List String)
    (h : ∀ c ∈ cs, (CLASS_MAP.lookup c).isSome = true) :
    isOkE (mapClasses cs) = true := by
  induction cs with
  | nil => rfl
  | cons c cs ih =>
    have hc := h c (List.mem_cons_self c cs)
    simp only [mapClasses]
    cases hl : CLASS_MAP.lookup c with
    | none =>
      rw [hl] at hc
      exact absurd hc (by simp)
    | some a =>
      have hrest := ih (fun c' hc' => h c' (List.mem_cons_of_mem c hc'))
      cases hm : mapClasses cs with
      | error e0 =>
        rw [hm] at hrest
        exact hrest
      | ok l => rfl

/-- If the inner loop returns normally, every wanted class token of the
entry is a `CLASS_MAP` key. -/
theorem mapClasses_ok_mem (cs : List String) (h : isOkE (mapClasses cs) = true) :
    ∀ c ∈ cs, (CLASS_MAP.lookup c).isSome = true := by
  induction cs with
  | nil => simp
  | cons c cs ih =>
    simp only [mapClasses] at h
    intro c' hc'
    rcases List.mem_cons.mp hc' with rfl | hmem
    · cases hl : CLASS_MAP.lookup c' with
      | none =>
        rw [hl] at h
        exact absurd h (by simp [isOkE])
      | some a => simp
    · cases hl : CLASS_MAP.lookup c with
      | none =>
        rw [hl] at h
        exact absurd h (by simp [isOkE])
      | some a =>
        rw [hl] at h
        cases hm : mapClasses cs with
        | error e0 =>
          rw [hm] at h
          exact absurd h (by simp [isOkE])
        | ok l =>
          refine ih ?_ c' hmem
          rw [hm]
          rfl

/-- The only exception the inner loop raises is the `ClassError` of an
unknown wanted class token, carrying the `CLASS_MAP` key list. -/
theorem mapClasses_error (cs : List String) (e : ConfigError)
    (he : mapClasses cs = .error e) :
    ∃ c ∈ cs, CLASS_MAP.lookup c = none ∧ e = mkClassError c := by
  induction cs with
  | nil => simp [mapClasses] at he
  | cons c cs ih =>
    simp only [mapClasses] at he
    cases hl : CLASS_MAP.lookup c with
    | none =>
      rw [hl] at he
      injection he with he'
      exact ⟨c, List.mem_cons_self c cs, hl, he'.symm⟩
    | some a =>
      rw [hl] at he
      cases hm : mapClasses cs with
      | error e0 =>
        rw [hm] at he
        injection he with he'
        subst he'
        obtain ⟨c0, hc0, hl0, he0⟩ := ih hm
        exact ⟨c0, List.mem_cons_of_mem c hc0, hl0, he0⟩
      | ok l =>
        rw [hm] at he
        exact absurd he (by simp)

/-- The class tokens of a list of hour entries. -/
def entryTokens (entries : List (String × List String)) : List String :=
  entries.flatMap fun q => q.2

/-- Day-level run of `_get_classes`, success direction: with parsable
hour tokens and known class tokens it returns normally. -/
theorem getClassesDay_ok (entries : List (String × List String))
    (hp : entries.all (fun q => (parseHour q.1).isSome) = true)
    (h : ∀ c ∈ entryTokens entries, (CLASS_MAP.lookup c).isSome = true) :
    isOkE (getClassesDay entries) = true := by
  induction entries with
  | nil => rfl
  | cons q rest ih =>
    obtain ⟨ht, cs⟩ := q
    rw [List.all_cons, Bool.and_eq_true] at hp
    simp only [getClassesDay]
    cases hh : hourE ht with
    | error e =>
      have : isOkE (hourE ht) = (parseHour ht).isSome := isOkE_hourE ht
      rw [hh, hp.1] at this
      exact absurd this (by simp [isOkE])
    | ok hr =>
      have hcs : ∀ c ∈ cs, (CLASS_MAP.lookup c).isSome = true := fun c hc =>
        h c (by simp [entryTokens, hc])
      cases hm : mapClasses cs with
      | error e =>
        have := mapClasses_ok cs hcs
        rw [hm] at this
        exact absurd this (by simp [isOkE])
      | ok mapped =>
        have hrest : ∀ c ∈ entryTokens rest, (CLASS_MAP.lookup c).isSome = true := fun c hc =>
          h c (by simp only [entryTokens, List.flatMap_cons]; exact List.mem_append_right _ hc)
        have := ih hp.2 hrest
        cases hd : getClassesDay rest with
        | error e =>
          rw [hd] at this
          exact this
        | ok p =>
          obtain ⟨hs, cls⟩ := p
          rfl

/-- Day-level run of `_get_classes`, failure direction: with parsable
hour tokens, the only exception is the `ClassError` of an unknown class
token of the day. -/
theorem getClassesDay_error (entries : List (String × List String)) (e : ConfigError)
    (hp : entries.all (fun q => (parseHour q.1).isSome) = true)
    (he : getClassesDay entries = .error e) :
    ∃ c ∈ entryTokens entries, CLASS_MAP.lookup c = none ∧ e = mkClassError c := by
  induction entries with
  | nil => simp [getClassesDay] at he
  | cons q rest ih =>
    obtain ⟨ht, cs⟩ := q
    rw [List.all_cons, Bool.and_eq_true] at hp
    simp only [getClassesDay] at he
    cases hh : hourE ht with
    | error e0 =>
      have : isOkE (hourE ht) = (parseHour ht).isSome := isOkE_hourE ht
      rw [hh, hp.1] at this
      exact absurd this (by simp [isOkE])
    | ok hr =>
      rw [hh] at he
      cases hm : mapClasses cs with
      | error e0 =>
        rw [hm] at he
        injection he with he'
        subst he'
        obtain ⟨c0, hc0, hl0, he0⟩ := mapClasses_error cs e0 hm
        exact ⟨c0, by simp [entryTokens, hc0], hl0, he0⟩
      | ok mapped =>
        rw [hm] at he
        cases hd : getClassesDay rest with
        | error e0 =>
          rw [hd] at he
          injection he with he'
          subst he'
          obtain ⟨c0, hc0, hl0, he0⟩ := ih hp.2 hd
          refine ⟨c0, ?_, hl0, he0⟩
          simp only [entryTokens, List.flatMap_cons]
          exact List.mem_append_right _ hc0
        | ok p =>
          obtain ⟨hs, cls⟩ := p
          rw [hd] at he
          exact absurd he (by simp)

/-- Day-level converse: a normal return means every class token of the
day was resolved against `CLASS_MAP`. -/
theorem getClassesDay_ok_mem (entries : List (String × List String))
    (h : isOkE (getClassesDay entries) = true) :
    ∀ c ∈ entryTokens entries, (CLASS_MAP.lookup c).isSome = true := by
  induction entries with
  | nil => simp [entryTokens]
  | cons q rest ih =>
    obtain ⟨ht, cs⟩ := q
    simp only [getClassesDay] at h
    cases hh : hourE ht with
    | error e =>
      rw [hh] at h
      exact absurd h (by simp [isOkE])
    | ok hr =>
      rw [hh] at h
      cases hm : mapClasses cs with
      | error e =>
        rw [hm] at h
        exact absurd h (by simp [isOkE])
      | ok mapped =>
        rw [hm] at h
        cases hd : getClassesDay rest with
        | error e =>
          rw [hd] at h
          exact absurd h (by simp [isOkE])
        | ok p =>
          intro c hc
          simp only [entryTokens, List.flatMap_cons] at hc
          rcases List.mem_append.mp hc with hcl | hcr
          · exact mapClasses_ok_mem cs (by rw [hm]; rfl) c hcl
          · exact ih (by rw [hd]; rfl) c hcr

/-- Document-level converse: a normal return of `_get_classes` means
every wanted class token of the document was resolved. -/
theorem getClasses_ok_mem (doc : ConfigDoc) (h : isOkE (getClasses doc) = true) :
    ∀ c ∈ classTokens doc, (CLASS_MAP.lookup c).isSome = true := by
  induction doc with
  | nil => simp [classTokens]
  | cons p rest ih =>
    obtain ⟨dt, hours⟩ := p
    simp only [getClasses] at h
    cases hpd : parse_day dt with
    | error e =>
      rw [hpd] at h
      exact absurd h (by simp [isOkE])
    | ok d =>
      rw [hpd] at h
      cases hgd : getClassesDay hours with
      | error e =>
        rw [hgd] at h
        exact absurd h (by simp [isOkE])
      | ok q =>
        obtain ⟨hs, cls⟩ := q
        rw [hgd] at h
        cases hgr : getClasses rest with
        | error e =>
          rw [hgr] at h
          exact absurd h (by simp [isOkE])
        | ok t =>
          intro c hc
          simp only [classTokens, List.flatMap_cons] at hc
          rcases List.mem_append.mp hc with hcl | hcr
          · exact getClassesDay_ok_mem hours (by rw [hgd]; rfl) c hcl
          · exact ih (by rw [hgr]; rfl) c hcr

/-- Document-level success direction. -/
theorem getClasses_ok (doc : ConfigDoc) (hw : cfgTokensParse doc = true)
    (h : ∀ c ∈ classTokens doc, (CLASS_MAP.lookup c).isSome = true) :
    isOkE (getClasses doc) = true := by
  induction doc with
  | nil => rfl
  | cons p rest ih =>
    obtain ⟨dt, hours⟩ := p
    rw [cfgTokensParse, List.all_cons, Bool.and_eq_true, Bool.and_eq_true] at hw
    simp only [getClasses]
    cases hpd : parse_day dt with
    | error e =>
      rw [hpd] at hw
      exact absurd hw.1.1 (by simp [isOkE])
    | ok d =>
      have hhours : ∀ c ∈ entryTokens hours, (CLASS_MAP.lookup c).isSome = true := fun c hc =>
        h c (by simp only [classTokens, List.flatMap_cons]; exact List.mem_append_left _ hc)
      cases hgd : getClassesDay hours with
      | error e =>
        have := getClassesDay_ok hours hw.1.2 hhours
        rw [hgd] at this
        exact absurd this (by simp [isOkE])
      | ok p =>
        obtain ⟨hs, cls⟩ := p
        have hrest : ∀ c ∈ classTokens rest, (CLASS_MAP.lookup c).isSome = true := fun c hc =>
          h c (by simp only [classTokens, List.flatMap_cons]; exact List.mem_append_right _ hc)
        have := ih hw.2 hrest
        cases hgr : getClasses rest with
        | error e =>
          rw [hgr] at this
          exact this
        | ok t =>
          obtain ⟨ds, hs2, cls2⟩ := t
          rfl

/-- Document-level failure direction: with parsable day and hour tokens,
the only exception `_get_classes` raises is the `ClassError` of an
unknown wanted class token, listing the `CLASS_MAP` keys. -/
theorem getClasses_error (doc : ConfigDoc) (e : ConfigError)
    (hw : cfgTokensParse doc = true) (he : getClasses doc = .error e) :
    ∃ c ∈ classTokens doc, CLASS_MAP.lookup c = none ∧ e = mkClassError c := by
  induction doc with
  | nil => simp [getClasses] at he
  | cons p rest ih =>
    obtain ⟨dt, hours⟩ := p
    rw [cfgTokensParse, List.all_cons, Bool.and_eq_true, Bool.and_eq_true] at hw
    simp only [getClasses] at he
    cases hpd : parse_day dt with
    | error e0 =>
      rw [hpd] at hw
      exact absurd hw.1.1 (by simp [isOkE])
    | ok d =>
      rw [hpd] at he
      cases hgd : getClassesDay hours with
      | error e0 =>
        rw [hgd] at he
        injection he with he'
        subst he'
        obtain ⟨c0, hc0, hl0, he0⟩ := getClassesDay_error hours e0 hw.1.2 hgd
        refine ⟨c0, ?_, hl0, he0⟩
        simp only [classTokens, List.flatMap_cons]
        exact List.mem_append_left _ hc0
      | ok q =>
        obtain ⟨hs, cls⟩ := q
        rw [hgd] at he
        cases hgr : getClasses rest with
        | error e0 =>
          rw [hgr] at he
          injection he with he'
          subst he'
          obtain ⟨c0, hc0, hl0, he0⟩ := ih hw.2 hgr
          refine ⟨c0, ?_, hl0, he0⟩
          simp only [classTokens, List.flatMap_cons]
          exact List.mem_append_right _ hc0
        | ok t =>
          obtain ⟨ds, hs2, cls2⟩ := t
          rw [hgr] at he
          exact absurd he (by simp)

/-- C3 counterexample: the spec names `Halterofília` (and `Calisteni`)
among the accepted configuration tokens, but the configuration
vocabulary is `CLASS_MAP.keys()` — the English names — so a document
wanting `Halterofília` raises `ClassError` instead of being accepted. -/
theorem class_vocab_cex :
    "Halterofília" ∈ specClassVocabulary ∧
    getClasses [("22/11/2020", [("11:00", ["Halterofília"])])]
      = .error (.classError "Halterofília"
          ["Open Box", "Crossfit", "Calisthenics", "Weightlifting"]) := by decide

/-- C3 (amended): for every configuration document whose day and hour
tokens parse, `_get_classes` returns normally exactly when every wanted
class token is one of the four `CLASS_MAP` keys `Open Box`, `Crossfit`,
`Calisthenics`, `Weightlifting`; otherwise it raises the `ClassError` of
an unknown token, listing exactly those four valid names. -/
theorem class_vocab_amended (doc : ConfigDoc) (hw : cfgTokensParse doc = true) :
    (isOkE (getClasses doc) = true ↔
      ∀ c ∈ classTokens doc, (CLASS_MAP.lookup c).isSome = true) ∧
    (∀ e, getClasses doc = .error e →
      ∃ c ∈ classTokens doc, CLASS_MAP.lookup c = none ∧
        e = .classError c ["Open Box", "Crossfit", "Calisthenics", "Weightlifting"]) := by
  constructor
  · exact ⟨getClasses_ok_mem doc, getClasses_ok doc hw⟩
  · intro e he
    obtain ⟨c0, hc0, hl0, he0⟩ := getClasses_error doc e hw he
    exact ⟨c0, hc0, hl0, by rw [he0]; rfl⟩

/-- Witness for `class_vocab_amended`: a well-formed document wanting
`Crossfit` on 2020-11-22 at 11:00. -/
theorem class_vocab_amended_witness :
    cfgTokensParse [("22/11/2020", [("11:00", ["Crossfit"])])] = true ∧
    ((isOkE (getClasses [("22/11/2020", [("11:00", ["Crossfit"])])]) = true ↔
      ∀ c ∈ classTokens [("22/11/2020", [("11:00", ["Crossfit"])])],
        (CLASS_MAP.lookup c).isSome = true) ∧
     (∀ e, getClasses [("22/11/2020", [("11:00", ["Crossfit"])])] = .error e →
       ∃ c ∈ classTokens [("22/11/2020", [("11:00", ["Crossfit"])])],
         CLASS_MAP.lookup c = none ∧
           e = .classError c ["Open Box", "Crossfit", "Calisthenics", "Weightlifting"])) :=
  ⟨by decide, class_vocab_amended [("22/11/2020", [("11:00", ["Crossfit"])])] (by decide)⟩

/-- Witness for `oversized_row_dropped`: a five-cell row after the two
header rows. -/
theorem oversized_row_dropped_witness :
    (2 ≤ ([[], []] : List (List Cell)).length ∧
      4 < ([⟨"", none⟩, ⟨"", none⟩, ⟨"", none⟩, ⟨"", none⟩, ⟨"", none⟩] : List Cell).length) ∧
    getActivities [[], [], [⟨"", none⟩, ⟨"", none⟩, ⟨"", none⟩, ⟨"", none⟩, ⟨"", none⟩]]
      = getActivities [[], []] :=
  ⟨by decide,
   oversized_row_dropped [[], []] []
     [⟨"", none⟩, ⟨"", none⟩, ⟨"", none⟩, ⟨"", none⟩, ⟨"", none⟩] (by decide) (by decide)⟩
